import Mathlib

/-!
Verification of the Exchange Outpost TypeScript function template's
indicator / signal examples (the QUICKREF and EXAMPLES strategy code).

JavaScript numbers are modelled as rationals (`ℚ`); the degenerate values
`NaN`, `+Infinity`, `-Infinity` that JS division can produce are modelled
explicitly by the `JsVal` type, and `undefined` array reads by `Option`.
Array operations (`slice` with negative indices, out-of-range indexing)
follow the ECMAScript semantics.
-/

/-- Result of a JS `parseInt` call argument: either `NaN` or an integer. -/
inductive JsInt where
  | nan : JsInt
  | val : ℤ → JsInt
deriving DecidableEq

/-- Result of a JS `parseFloat` call argument: either `NaN` or a finite number. -/
inductive JsNum where
  | nan : JsNum
  | num : ℚ → JsNum
deriving DecidableEq

/-- A JS number value including the non-finite values that division can yield. -/
inductive JsVal where
  | nan : JsVal
  | posInf : JsVal
  | negInf : JsVal
  | num : ℚ → JsVal
deriving DecidableEq

/-- JS `x || d` defaulting for a parsed-int call argument: a missing argument
(`none`), a `NaN` parse result, and the number `0` are all falsy, so the
default applies; any other integer is kept. Embeds
`args.getCallArgument(name, parseInt) || d`. -/
def jsOrInt : Option JsInt → ℤ → ℤ
  | none, d => d
  | some JsInt.nan, d => d
  | some (JsInt.val z), d => if z = 0 then d else z

/-- JS `x || d` defaulting for a parsed-float call argument. -/
def jsOrNum : Option JsNum → ℚ → ℚ
  | none, d => d
  | some JsNum.nan, d => d
  | some (JsNum.num q), d => if q = 0 then d else q

/-- JS `x || d` defaulting for a string call argument: missing and `""` are falsy. -/
def jsOrStr : Option String → String → String
  | none, d => d
  | some s, d => if s = "" then d else s

/-- JS array read `l[i]`: `undefined` (`none`) when out of range or negative. -/
def jsNth {α : Type} (l : List α) (i : ℤ) : Option α :=
  if i < 0 then none else l[i.toNat]?

/-- JS `Array.prototype.slice(start, end)`: negative indices count from the
end, then both are clamped to `[0, length]`. -/
def jsSlice {α : Type} (l : List α) (start endIdx : ℤ) : List α :=
  let n : ℤ := l.length
  let s : ℤ := if start < 0 then max (n + start) 0 else min start n
  let e : ℤ := if endIdx < 0 then max (n + endIdx) 0 else min endIdx n
  (l.drop s.toNat).take (e - s).toNat

/-- JS one-argument `Array.prototype.slice(start)` (end defaults to length). -/
def jsSliceFrom {α : Type} (l : List α) (start : ℤ) : List α :=
  jsSlice l start l.length

/-- JS division on possibly non-finite values: division by `0` yields a signed
infinity (or `NaN` for `0/0`), and `NaN` propagates. -/
def jsDivV : JsVal → JsVal → JsVal
  | JsVal.num a, JsVal.num b =>
      if b = 0 then (if a > 0 then JsVal.posInf else if a < 0 then JsVal.negInf else JsVal.nan)
      else JsVal.num (a / b)
  | JsVal.num _, JsVal.posInf => JsVal.num 0
  | JsVal.num _, JsVal.negInf => JsVal.num 0
  | JsVal.posInf, JsVal.num b => if b < 0 then JsVal.negInf else JsVal.posInf
  | JsVal.negInf, JsVal.num b => if b < 0 then JsVal.posInf else JsVal.negInf
  | _, _ => JsVal.nan

/-- Coercion of a possibly-`undefined` number into JS arithmetic:
`undefined` becomes `NaN`. -/
def jsOfOpt : Option ℚ → JsVal
  | none => JsVal.nan
  | some q => JsVal.num q

/-- JS comparison `v >= m` with `m` finite: any comparison with `NaN` is false. -/
def jsGeVq : JsVal → ℚ → Bool
  | JsVal.nan, _ => false
  | JsVal.posInf, _ => true
  | JsVal.negInf, _ => false
  | JsVal.num a, m => decide (m ≤ a)

/-- JS comparison `a <= t` where `t` is a possibly missing / `NaN` parsed
argument: false unless `t` is an actual number. -/
def jsLeQ (a : ℚ) : Option JsNum → Bool
  | some (JsNum.num t) => decide (a ≤ t)
  | _ => false

/-- JS comparison `a > t` with `t` possibly missing / `NaN`. -/
def jsGtQ (a : ℚ) : Option JsNum → Bool
  | some (JsNum.num t) => decide (t < a)
  | _ => false

/-- JS comparison `a >= t` with `t` possibly missing / `NaN`. -/
def jsGeQ (a : ℚ) : Option JsNum → Bool
  | some (JsNum.num t) => decide (t ≤ a)
  | _ => false

/-- JS comparison `a < t` with `t` possibly missing / `NaN`. -/
def jsLtQ (a : ℚ) : Option JsNum → Bool
  | some (JsNum.num t) => decide (a < t)
  | _ => false

/-- A candlestick as supplied by the host: `{timestamp, open, high, low, close, volume}`
(`open` is a Lean keyword, hence `open_`). -/
structure Candle where
  timestamp : ℤ
  open_ : ℚ
  high : ℚ
  low : ℚ
  close : ℚ
  volume : ℚ
deriving DecidableEq

/-- A scheduled email notification: `(recipient, message)`, from `scheduleEmail`. -/
abbrev Email := String × String

/-- A strategy's `output(...)` record: `{status: 'ok', ...fields}` or
`{status: 'error', message}`. -/
inductive RunResult (α : Type) where
  | ok : α → RunResult α
  | error : String → RunResult α
deriving DecidableEq

/-- The `status` field of an output record. -/
def RunResult.status {α : Type} : RunResult α → String
  | RunResult.ok _ => "ok"
  | RunResult.error _ => "error"

/-- The `ok` payload of an output record, when present. -/
def RunResult.getOk {α : Type} : RunResult α → Option α
  | RunResult.ok a => some a
  | RunResult.error _ => none

/-- `calculateSma(data, period)` (QUICKREF / SMA-alert example): for
`i = 0` while `i <= data.length - period`, push
`data.slice(i, i + period).reduce((a,b) => a+b, 0) / period`. The period is
an integer (JS `parseInt` result after defaulting). -/
def calculateSma (data : List ℚ) (period : ℤ) : List ℚ :=
  (List.range ((data.length : ℤ) - period + 1).toNat).map
    (fun (i : ℕ) => (jsSlice data (i : ℤ) ((i : ℤ) + period)).sum / (period : ℚ))

/-- On a slice entirely in range, `jsSlice` is `drop`-then-`take`. -/
theorem jsSlice_in_range {α : Type} (l : List α) (i p : ℤ) (hi : 0 ≤ i) (hp : 0 ≤ p)
    (hn : i + p ≤ (l.length : ℤ)) :
    jsSlice l i (i + p) = (l.drop i.toNat).take p.toNat := by
  unfold jsSlice
  have h1 : ¬ i < 0 := not_lt.mpr hi
  have h2 : ¬ i + p < 0 := not_lt.mpr (by linarith)
  simp only [h1, if_false, h2]
  have hin : i ≤ (l.length : ℤ) := by linarith
  rw [min_eq_left hin, min_eq_left hn]
  congr 1
  omega

/-- C5. `calculateSma` output length is `max(0, n - period + 1)`, and each
element `i` is the arithmetic mean of the full window `data[i .. i+period)`. -/
theorem calculateSma_spec (data : List ℚ) (p : ℤ) (hp : 1 ≤ p) :
    ((calculateSma data p).length : ℤ) = max 0 ((data.length : ℤ) - p + 1) ∧
    ∀ i : ℕ, i < (calculateSma data p).length →
      (((data.drop i).take p.toNat).length : ℤ) = p ∧
      (calculateSma data p)[i]? =
        some (((data.drop i).take p.toNat).sum /
              ((((data.drop i).take p.toNat).length : ℤ) : ℚ)) := by
  constructor
  · simp only [calculateSma, List.length_map, List.length_range]
    rw [Int.toNat_eq_max, max_comm]
  · intro i hi
    have hiK : i < ((data.length : ℤ) - p + 1).toNat := by
      simpa [calculateSma, List.length_map, List.length_range] using hi
    have hiz : (i : ℤ) < (data.length : ℤ) - p + 1 := by omega
    have hwin : (i : ℤ) + p ≤ (data.length : ℤ) := by omega
    have hlen : (((data.drop i).take p.toNat).length : ℤ) = p := by
      rw [List.length_take, List.length_drop]
      omega
    refine ⟨hlen, ?_⟩
    have hget : (calculateSma data p)[i]? =
        some ((jsSlice data (i : ℤ) ((i : ℤ) + p)).sum / (p : ℚ)) := by
      simp only [calculateSma, List.getElem?_map, List.getElem?_range, hiK]
      rfl
    rw [hget, jsSlice_in_range data (i : ℤ) p (by positivity) (by linarith) hwin]
    simp only [Int.toNat_natCast, hlen]

/-- Witness for C5 at `data = [1,2,3]`, `p = 2`. -/
theorem calculateSma_spec_witness :
    ((calculateSma ([1, 2, 3] : List ℚ) 2).length : ℤ) =
      max 0 ((([1, 2, 3] : List ℚ).length : ℤ) - 2 + 1) :=
  (calculateSma_spec [1, 2, 3] 2 (by norm_num)).1

/-- Helper for `calculateEma`: from a previous EMA value, fold the recurrence
`e = d*k + prev*(1-k)` over the remaining data. -/
def emaStep (k : ℚ) : ℚ → List ℚ → List ℚ
  | _, [] => []
  | prev, d :: rest => (d * k + prev * (1 - k)) :: emaStep k (d * k + prev * (1 - k)) rest

/-- `calculateEma(data, period)` (QUICKREF): `k = 2/(period+1)`,
`ema[0] = data[0]`, `ema[i] = data[i]*k + ema[i-1]*(1-k)`. On empty input the
JS assignment `ema[0] = data[0]` stores `undefined` at index 0, producing a
one-element array; that is modelled as `[none]`. -/
def calculateEma (data : List ℚ) (period : ℕ) : List (Option ℚ) :=
  let k : ℚ := 2 / ((period : ℚ) + 1)
  match data with
  | [] => [none]
  | d0 :: rest => some d0 :: (emaStep k d0 rest).map some

/-- `emaStep` preserves length. -/
theorem emaStep_length (k : ℚ) : ∀ (prev : ℚ) (l : List ℚ),
    (emaStep k prev l).length = l.length := by
  intro prev l
  induction l generalizing prev with
  | nil => rfl
  | cons d rest ih => simp [emaStep, ih]

/-- Consecutive entries of the chain `prev :: emaStep k prev l` satisfy the
EMA recurrence with the matching data element. -/
theorem emaStep_chain_rec (k : ℚ) : ∀ (l : List ℚ) (prev : ℚ) (i : ℕ),
    i + 1 < (prev :: emaStep k prev l).length →
    ∃ ePrev eCur d, (prev :: emaStep k prev l)[i]? = some ePrev ∧
      (prev :: emaStep k prev l)[i + 1]? = some eCur ∧
      l[i]? = some d ∧ eCur = d * k + ePrev * (1 - k) := by
  intro l
  induction l with
  | nil => intro prev i h; simp [emaStep] at h
  | cons d rest ih =>
    intro prev i h
    have hstep : emaStep k prev (d :: rest) =
        (d * k + prev * (1 - k)) :: emaStep k (d * k + prev * (1 - k)) rest := rfl
    match i with
    | 0 =>
      refine ⟨prev, d * k + prev * (1 - k), d, ?_, ?_, ?_, rfl⟩
      · simp
      · rw [List.getElem?_cons_succ, hstep]; simp
      · simp
    | j + 1 =>
      have hlen : j + 1 <
          ((d * k + prev * (1 - k)) :: emaStep k (d * k + prev * (1 - k)) rest).length := by
        simp only [List.length_cons, emaStep_length] at h ⊢
        omega
      obtain ⟨ePrev, eCur, dd, h1, h2, h3, h4⟩ := ih (d * k + prev * (1 - k)) j hlen
      refine ⟨ePrev, eCur, dd, ?_, ?_, ?_, h4⟩
      · rw [List.getElem?_cons_succ, hstep]
        exact h1
      · rw [List.getElem?_cons_succ, hstep]
        exact h2
      · rw [List.getElem?_cons_succ]
        exact h3

/-- C7 counterexample: on the empty input the EMA output has length 1 (a single
`undefined` entry), not length 0 = input length. -/
theorem calculateEma_empty_length :
    (calculateEma ([] : List ℚ) 10).length = 1 ∧ ([] : List ℚ).length = 0 := by
  constructor <;> rfl

/-- C7 (amended): for every nonempty input, the EMA output has the input's
length, is seeded with the first datum, and consecutive defined values obey
`ema[i+1] = data[i+1]*k + ema[i]*(1-k)` with `k = 2/(period+1)`. -/
theorem calculateEma_spec (data : List ℚ) (period : ℕ) (hne : data ≠ []) :
    (calculateEma data period).length = data.length ∧
    (calculateEma data period)[0]? = some (some data.headI) ∧
    ∀ i : ℕ, i + 1 < data.length →
      ∃ ePrev eCur d, (calculateEma data period)[i]? = some (some ePrev) ∧
        (calculateEma data period)[i + 1]? = some (some eCur) ∧
        data[i + 1]? = some d ∧
        eCur = d * (2 / ((period : ℚ) + 1)) + ePrev * (1 - 2 / ((period : ℚ) + 1)) := by
  match data with
  | [] => exact absurd rfl hne
  | d0 :: rest =>
    refine ⟨?_, by simp [calculateEma], ?_⟩
    · simp [calculateEma, emaStep_length]
    · intro i hi
      have hchain : i + 1 <
          (d0 :: emaStep (2 / ((period : ℚ) + 1)) d0 rest).length := by
        simp only [List.length_cons, emaStep_length]
        simpa using hi
      obtain ⟨ePrev, eCur, d, h1, h2, h3, h4⟩ :=
        emaStep_chain_rec (2 / ((period : ℚ) + 1)) rest d0 i hchain
      refine ⟨ePrev, eCur, d, ?_, ?_, ?_, h4⟩
      · show ((d0 :: emaStep (2 / ((period : ℚ) + 1)) d0 rest).map some)[i]? = some (some ePrev)
        rw [List.getElem?_map, h1]; rfl
      · show ((d0 :: emaStep (2 / ((period : ℚ) + 1)) d0 rest).map some)[i + 1]? = some (some eCur)
        rw [List.getElem?_map, h2]; rfl
      · simpa using h3

/-- Witness for C7 (amended) at `data = [1, 2]`, `period = 3`. -/
theorem calculateEma_spec_witness :
    (calculateEma ([1, 2] : List ℚ) 3).length = ([1, 2] : List ℚ).length :=
  (calculateEma_spec [1, 2] 3 (by decide)).1

/-- `calculateRsi(prices, period)` (QUICKREF / RSI-alert example):
`changes[i] = prices[i+1] - prices[i]`; for each window of `period`
consecutive changes, `gains` = sum of positive changes over `period`,
`losses` = |sum of negative changes| over `period`, `rs = gains / (losses || 1)`
(the source substitutes `1` for a zero loss, it does not treat `rs` as
infinite), and `rsi = 100 - 100/(1 + rs)`. -/
def calculateRsi (prices : List ℚ) (period : ℕ) : List ℚ :=
  let changes := List.zipWith (fun a b => a - b) (prices.drop 1) prices
  (List.range (changes.length + 1 - period)).map (fun (j : ℕ) =>
    let recentChanges := (changes.drop j).take period
    let gains := (recentChanges.filter (fun c => 0 < c)).sum / (period : ℚ)
    let losses := |(recentChanges.filter (fun c => c < 0)).sum| / (period : ℚ)
    let rs := gains / (if losses = 0 then 1 else losses)
    100 - (100 / (1 + rs)))

/-- C1, code behaviour at the failing input: over the monotonically increasing
15-point series with period 14 every change is a gain (`avgLoss = 0`), yet the
code computes `rs = avgGain / 1 = 1` and so RSI = 50, not the claimed 100. -/
theorem calculateRsi_all_gains_is_fifty :
    calculateRsi ([1, 2, 3, 4, 5, 6, 7, 8, 9, 10, 11, 12, 13, 14, 15] : List ℚ) 14 =
      [50] := by
  simp only [calculateRsi]
  norm_num [List.range, List.range.loop, List.filter, List.sum]

/-- C9. Every value produced by `calculateRsi` lies in `[0, 100]`. -/
theorem calculateRsi_bounded (prices : List ℚ) (period : ℕ) (hp : 1 ≤ period) :
    ∀ x ∈ calculateRsi prices period, 0 ≤ x ∧ x ≤ 100 := by
  intro x hx
  simp only [calculateRsi, List.mem_map, List.mem_range] at hx
  obtain ⟨j, _, rfl⟩ := hx
  set changes := List.zipWith (fun a b => a - b) (prices.drop 1) prices with hch
  set recentChanges := (changes.drop j).take period with hrc
  have hper : (0 : ℚ) < (period : ℚ) := by exact_mod_cast hp
  have hgain : 0 ≤ (recentChanges.filter (fun c => 0 < c)).sum / (period : ℚ) := by
    apply div_nonneg _ hper.le
    apply List.sum_nonneg
    intro c hc
    have := List.of_mem_filter hc
    have hcpos : (0 : ℚ) < c := by simpa using this
    exact hcpos.le
  have hloss : 0 ≤ |(recentChanges.filter (fun c => c < 0)).sum| / (period : ℚ) :=
    div_nonneg (abs_nonneg _) hper.le
  set losses := |(recentChanges.filter (fun c => c < 0)).sum| / (period : ℚ) with hl
  have hden : 0 < (if losses = 0 then 1 else losses) := by
    split
    · norm_num
    · exact lt_of_le_of_ne hloss (by tauto)
  set rs := ((recentChanges.filter (fun c => 0 < c)).sum / (period : ℚ)) /
      (if losses = 0 then 1 else losses) with hrs
  have hrsnn : 0 ≤ rs := div_nonneg hgain hden.le
  have h1rs : (0 : ℚ) < 1 + rs := by linarith
  have hfrac_pos : 0 < 100 / (1 + rs) := by positivity
  have hfrac_le : 100 / (1 + rs) ≤ 100 := by
    apply div_le_self (by norm_num)
    linarith
  constructor
  · linarith
  · linarith

/-- Witness for C9 at `prices = [1, 2]`, `period = 1` (the single RSI value is 50). -/
theorem calculateRsi_bounded_witness :
    0 ≤ (calculateRsi ([1, 2] : List ℚ) 1).headI ∧
      (calculateRsi ([1, 2] : List ℚ) 1).headI ≤ 100 :=
  calculateRsi_bounded [1, 2] 1 (by norm_num) (calculateRsi ([1, 2] : List ℚ) 1).headI
    (by
      have h : calculateRsi ([1, 2] : List ℚ) 1 = [50] := by
        simp only [calculateRsi]
        norm_num [List.range, List.range.loop, List.filter, List.sum]
      rw [h]
      simp)

/-- The two crossover signals. The QUICKREF copy labels them
`'above'`/`'below'`, the SMA-alert copy `'bullish'`/`'bearish'`; the logic is
identical. -/
inductive Crossover where
  | bullish : Crossover
  | bearish : Crossover
deriving DecidableEq

/-- `detectCrossover(fastSma, slowSma)`: `null` when either series has fewer
than 2 values; otherwise compares the last two values of each series. -/
def detectCrossover (fastSma slowSma : List ℚ) : Option Crossover :=
  if fastSma.length < 2 ∨ slowSma.length < 2 then none
  else
    let currentFast := fastSma.getD (fastSma.length - 1) 0
    let previousFast := fastSma.getD (fastSma.length - 2) 0
    let currentSlow := slowSma.getD (slowSma.length - 1) 0
    let previousSlow := slowSma.getD (slowSma.length - 2) 0
    if previousFast ≤ previousSlow ∧ currentSlow < currentFast then some Crossover.bullish
    else if previousSlow ≤ previousFast ∧ currentFast < currentSlow then some Crossover.bearish
    else none

/-- The output field `crossover: crossover || 'none'`. -/
def crossoverLabel : Option Crossover → String
  | some Crossover.bullish => "bullish"
  | some Crossover.bearish => "bearish"
  | none => "none"

/-- C6. `detectCrossover` returns `none` when either series has fewer than two
values; with at least two values on each side it returns the bullish signal
iff `pf <= ps && cf > cs`, the bearish signal iff `pf >= ps && cf < cs`,
`none` when neither condition holds, and never both signals at once. -/
theorem detectCrossover_spec (fastSma slowSma : List ℚ) :
    ((fastSma.length < 2 ∨ slowSma.length < 2) → detectCrossover fastSma slowSma = none) ∧
    (2 ≤ fastSma.length → 2 ≤ slowSma.length →
      ((detectCrossover fastSma slowSma = some Crossover.bullish ↔
          fastSma.getD (fastSma.length - 2) 0 ≤ slowSma.getD (slowSma.length - 2) 0 ∧
          slowSma.getD (slowSma.length - 1) 0 < fastSma.getD (fastSma.length - 1) 0) ∧
       (detectCrossover fastSma slowSma = some Crossover.bearish ↔
          slowSma.getD (slowSma.length - 2) 0 ≤ fastSma.getD (fastSma.length - 2) 0 ∧
          fastSma.getD (fastSma.length - 1) 0 < slowSma.getD (slowSma.length - 1) 0) ∧
       ¬(detectCrossover fastSma slowSma = some Crossover.bullish ∧
         detectCrossover fastSma slowSma = some Crossover.bearish) ∧
       (¬(fastSma.getD (fastSma.length - 2) 0 ≤ slowSma.getD (slowSma.length - 2) 0 ∧
           slowSma.getD (slowSma.length - 1) 0 < fastSma.getD (fastSma.length - 1) 0) →
        ¬(slowSma.getD (slowSma.length - 2) 0 ≤ fastSma.getD (fastSma.length - 2) 0 ∧
           fastSma.getD (fastSma.length - 1) 0 < slowSma.getD (slowSma.length - 1) 0) →
        detectCrossover fastSma slowSma = none))) := by
  constructor
  · intro h
    simp only [detectCrossover, if_pos h]
  · intro h1 h2
    have hguard : ¬(fastSma.length < 2 ∨ slowSma.length < 2) := by omega
    simp only [detectCrossover, if_neg hguard]
    set pf := fastSma.getD (fastSma.length - 2) 0
    set cf := fastSma.getD (fastSma.length - 1) 0
    set ps := slowSma.getD (slowSma.length - 2) 0
    set cs := slowSma.getD (slowSma.length - 1) 0
    by_cases hb : pf ≤ ps ∧ cs < cf
    · rw [if_pos hb]
      refine ⟨by simp [hb], ?_, by simp, fun hnb _ => absurd hb hnb⟩
      constructor
      · intro hcontra
        simp at hcontra
      · intro hbear
        exact absurd (lt_trans hb.2 hbear.2) (lt_irrefl cs)
    · rw [if_neg hb]
      by_cases hd : ps ≤ pf ∧ cf < cs
      · rw [if_pos hd]
        refine ⟨⟨fun hc => by simp at hc, fun hrhs => absurd hrhs hb⟩,
          by simp [hd], by simp, fun _ hnd => absurd hd hnd⟩
      · rw [if_neg hd]
        exact ⟨by simp [hb], by simp [hd], by simp, fun _ _ => rfl⟩

/-- Witness for C6 at `fastSma = [1, 3]`, `slowSma = [2, 2]` (a bullish cross). -/
theorem detectCrossover_spec_witness :
    detectCrossover ([1, 3] : List ℚ) ([2, 2] : List ℚ) = some Crossover.bullish :=
  (((detectCrossover_spec [1, 3] [2, 2]).2 (by norm_num) (by norm_num)).1).mpr
    (by norm_num)

/-- The two Bollinger breakout signals (output field values `'upper'` / `'lower'`). -/
inductive BandSide where
  | upper : BandSide
  | lower : BandSide
deriving DecidableEq

/-- The breakout classification of the Bollinger-bands example:
`if (currentPrice > upperBand) 'upper' else if (currentPrice < lowerBand) 'lower' else null`. -/
def bandBreakout (currentPrice upperBand lowerBand : ℚ) : Option BandSide :=
  if upperBand < currentPrice then some BandSide.upper
  else if currentPrice < lowerBand then some BandSide.lower
  else none

/-- C8. With genuine band values (`lower <= upper`), the breakout is `'upper'`
iff the price strictly exceeds the upper band, `'lower'` iff it is strictly
below the lower band, and a price exactly on either band yields `none`. -/
theorem bandBreakout_strict (price upperBand lowerBand : ℚ)
    (h : lowerBand ≤ upperBand) :
    (bandBreakout price upperBand lowerBand = some BandSide.upper ↔ upperBand < price) ∧
    (bandBreakout price upperBand lowerBand = some BandSide.lower ↔ price < lowerBand) ∧
    (price = upperBand → bandBreakout price upperBand lowerBand = none) ∧
    (price = lowerBand → bandBreakout price upperBand lowerBand = none) := by
  unfold bandBreakout
  by_cases hu : upperBand < price
  · rw [if_pos hu]
    refine ⟨by simp [hu], ?_, ?_, ?_⟩
    · constructor
      · intro hcontra; simp at hcontra
      · intro hlow; linarith
    · intro he; rw [he] at hu; exact absurd hu (lt_irrefl _)
    · intro he; rw [he] at hu; exact absurd (lt_of_le_of_lt h hu) (lt_irrefl _)
  · rw [if_neg hu]
    by_cases hl : price < lowerBand
    · rw [if_pos hl]
      refine ⟨by simpa using hu, by simp [hl], ?_, ?_⟩
      · intro he
        exfalso
        rw [he] at hl
        linarith
      · intro he
        exfalso
        rw [he] at hl
        exact lt_irrefl _ hl
    · rw [if_neg hl]
      exact ⟨by simp [hu], by simp [hl], fun _ => rfl, fun _ => rfl⟩

/-- Witness for C8 at `price = 5`, `upper = 4`, `lower = 2`. -/
theorem bandBreakout_strict_witness :
    bandBreakout (5 : ℚ) 4 2 = some BandSide.upper :=
  ((bandBreakout_strict 5 4 2 (by norm_num)).1).mpr (by norm_num)

/-- Rendering of a finite JS number into message text. JS float formatting is
not modelled digit-for-digit; no claim inspects notification text. -/
def renderNum (q : ℚ) : String := toString q

/-- Rendering of a possibly missing / `NaN` parsed argument (JS template
interpolation prints `undefined` / `NaN`). -/
def renderArg : Option JsNum → String
  | none => "undefined"
  | some JsNum.nan => "NaN"
  | some (JsNum.num q) => renderNum q

/-- JS `toFixed(2)` display rendering (rounding not modelled; see `renderNum`). -/
def toFixed2 (q : ℚ) : String := renderNum q

/-- JS `toFixed(2)` on a possibly non-finite value (`Infinity`/`NaN` print as such). -/
def toFixed2V : JsVal → String
  | JsVal.nan => "NaN"
  | JsVal.posInf => "Infinity"
  | JsVal.negInf => "-Infinity"
  | JsVal.num q => toFixed2 q

/-- Rendering of a possibly-`undefined` number. -/
def renderOptQ : Option ℚ → String
  | none => "undefined"
  | some q => renderNum q

namespace SmaAlert

/-- The `ok`-path output record of the Simple Moving Average Alert example. -/
structure OkRecord where
  ticker : String
  crossover : String
  emailSent : Bool
  currentFastSma : Option ℚ
  currentSlowSma : Option ℚ
deriving DecidableEq

/-- `run()` of the Simple Moving Average Alert example. Inputs are the host
candles and the raw call arguments (already parsed, `none` = missing).
`emailSent` is set exactly when a crossover branch fired, and
`fastSma[fastSma.length - 1]` is an `undefined`-able JS read (`jsNth`).
Note the example has no insufficient-data check: it always outputs `ok`. -/
def run (tickerArg : Option String) (candles : List Candle)
    (fastPeriodArg slowPeriodArg : Option JsInt) (emailArg : Option String) :
    RunResult OkRecord × List Email :=
  let ticker := jsOrStr tickerArg "BTCUSDT"
  let closePrices := candles.map Candle.close
  let fastPeriod := jsOrInt fastPeriodArg 10
  let slowPeriod := jsOrInt slowPeriodArg 20
  let email := jsOrStr emailArg "trader@example.com"
  let fastSma := calculateSma closePrices fastPeriod
  let slowSma := calculateSma closePrices slowPeriod
  let crossover := detectCrossover fastSma slowSma
  let emails : List Email :=
    match crossover with
    | some Crossover.bullish =>
        [(email, "Bullish crossover detected for " ++ ticker ++ ": Fast MA (" ++
          toString fastPeriod ++ ") crossed above Slow MA (" ++ toString slowPeriod ++ ")")]
    | some Crossover.bearish =>
        [(email, "Bearish crossover detected for " ++ ticker ++ ": Fast MA (" ++
          toString fastPeriod ++ ") crossed below Slow MA (" ++ toString slowPeriod ++ ")")]
    | none => []
  (RunResult.ok {
      ticker := ticker
      crossover := crossoverLabel crossover
      emailSent := crossover.isSome
      currentFastSma := jsNth fastSma ((fastSma.length : ℤ) - 1)
      currentSlowSma := jsNth slowSma ((slowSma.length : ℤ) - 1) }, emails)

end SmaAlert

namespace ThresholdAlert

/-- The `ok`-path output record of the Price Threshold Alert example. The
`threshold` field is echoed as read (possibly missing / `NaN`). -/
structure OkRecord where
  ticker : String
  currentPrice : ℚ
  threshold : Option JsNum
  direction : String
  triggered : Bool
  emailSent : Bool
deriving DecidableEq

/-- `run()` of the Price Threshold Alert example. The source never validates
`threshold`; a JS comparison against `undefined`/`NaN` is simply false
(`jsLeQ`/`jsGtQ`...). The two price reads are guarded by the length check, so
they are totalised with `getD 0` (never hit). -/
def run (tickerArg : Option String) (candles : List Candle)
    (thresholdArg : Option JsNum) (directionArg emailArg : Option String) :
    RunResult OkRecord × List Email :=
  let ticker := jsOrStr tickerArg "BTCUSDT"
  if candles.length < 2 then
    (RunResult.error "Not enough candles for analysis", [])
  else
    let threshold := thresholdArg
    let direction := jsOrStr directionArg "above"
    let email := jsOrStr emailArg "trader@example.com"
    let currentPrice := ((jsNth candles ((candles.length : ℤ) - 1)).map Candle.close).getD 0
    let previousPrice := ((jsNth candles ((candles.length : ℤ) - 2)).map Candle.close).getD 0
    let firedAbove : Bool :=
      (direction == "above") && jsLeQ previousPrice threshold && jsGtQ currentPrice threshold
    let firedBelow : Bool :=
      (direction == "below") && jsGeQ previousPrice threshold && jsLtQ currentPrice threshold
    let triggered : Bool := firedAbove || firedBelow
    let emails : List Email :=
      if firedAbove then
        [(email, ticker ++ " crossed ABOVE " ++ renderArg threshold ++
          ". Current price: " ++ renderNum currentPrice)]
      else if firedBelow then
        [(email, ticker ++ " crossed BELOW " ++ renderArg threshold ++
          ". Current price: " ++ renderNum currentPrice)]
      else []
    (RunResult.ok {
        ticker := ticker
        currentPrice := currentPrice
        threshold := threshold
        direction := direction
        triggered := triggered
        emailSent := triggered }, emails)

end ThresholdAlert

namespace VolumeSpike

/-- `calculateAverage(data)`: `reduce(+) / length`; on the empty array JS
produces `0/0 = NaN`, hence the `JsVal` result. -/
def calculateAverage (data : List ℚ) : JsVal :=
  jsDivV (JsVal.num data.sum) (JsVal.num ((data.length : ℤ) : ℚ))

/-- The `ok`-path output record of the Volume Spike Detector example. -/
structure OkRecord where
  ticker : String
  currentVolume : Option ℚ
  avgVolume : JsVal
  volumeRatio : JsVal
  spikeDetected : Bool
  emailSent : Bool
deriving DecidableEq

/-- `run()` of the Volume Spike Detector example. After the candle-count
check, `volumeRatio = currentVolume / avgVolume` is raw JS division: a zero
average gives a signed infinity (or `NaN`), which flows into the comparison
and the output record unchecked. -/
def run (tickerArg : Option String) (candles : List Candle)
    (volumePeriodArg : Option JsInt) (spikeMultiplierArg : Option JsNum)
    (emailArg : Option String) : RunResult OkRecord × List Email :=
  let ticker := jsOrStr tickerArg "BTCUSDT"
  let volumePeriod := jsOrInt volumePeriodArg 20
  let spikeMultiplier := jsOrNum spikeMultiplierArg 2
  let email := jsOrStr emailArg "trader@example.com"
  if (candles.length : ℤ) < volumePeriod + 1 then
    (RunResult.error ("Not enough candles. Need at least " ++
      toString (volumePeriod + 1)), [])
  else
    let volumes := candles.map Candle.volume
    let currentVolume := jsNth volumes ((volumes.length : ℤ) - 1)
    let historicalVolumes := jsSlice volumes (-volumePeriod - 1) (-1)
    let avgVolume := calculateAverage historicalVolumes
    let volumeRatio := jsDivV (jsOfOpt currentVolume) avgVolume
    let spikeDetected := jsGeVq volumeRatio spikeMultiplier
    let emails : List Email :=
      if spikeDetected then
        [(email, "Volume spike detected for " ++ ticker ++ ": Current volume " ++
          toFixed2V (jsOfOpt currentVolume) ++ " is " ++ toFixed2V volumeRatio ++
          "x the " ++ toString volumePeriod ++ "-period average (" ++
          toFixed2V avgVolume ++ ")")]
      else []
    (RunResult.ok {
        ticker := ticker
        currentVolume := currentVolume
        avgVolume := avgVolume
        volumeRatio := volumeRatio
        spikeDetected := spikeDetected
        emailSent := spikeDetected }, emails)

end VolumeSpike

namespace Bollinger

/-- The Bollinger example's own `calculateSma(data, period)`: mean of the LAST
`period` elements (`data.slice(-period)`), dividing by the slice length. -/
def calculateSma (data : List ℚ) (period : ℤ) : ℚ :=
  let slice := jsSliceFrom data (-period)
  slice.sum / (slice.length : ℚ)

/-- The Bollinger example's `calculateStdDev(data, period)`: population
variance of the trailing window, then `Math.sqrt`. A square root is
irrational-valued, so it is a parameter `sqrtFn`; every theorem about this
strategy holds for all `sqrtFn`. -/
def calculateStdDev (sqrtFn : ℚ → ℚ) (data : List ℚ) (period : ℤ) : ℚ :=
  let slice := jsSliceFrom data (-period)
  let mean := calculateSma data period
  let squaredDiffs := slice.map (fun v => (v - mean) ^ 2)
  sqrtFn (squaredDiffs.sum / (slice.length : ℚ))

/-- The `ok`-path output record of the Bollinger Bands Breakout example. -/
structure OkRecord where
  ticker : String
  currentPrice : Option ℚ
  sma : ℚ
  upperBand : ℚ
  lowerBand : ℚ
  breakout : Option BandSide
  emailSent : Bool
deriving DecidableEq

/-- `run()` of the Bollinger Bands Breakout example. The insufficient-data
check precedes all indicator work; the breakout classification is
`bandBreakout` (a JS comparison against an `undefined` price is false, hence
the `match`). -/
def run (sqrtFn : ℚ → ℚ) (tickerArg : Option String) (candles : List Candle)
    (periodArg : Option JsInt) (stdDevMultiplierArg : Option JsNum)
    (emailArg : Option String) : RunResult OkRecord × List Email :=
  let ticker := jsOrStr tickerArg "BTCUSDT"
  let closePrices := candles.map Candle.close
  let period := jsOrInt periodArg 20
  let stdDevMultiplier := jsOrNum stdDevMultiplierArg 2
  let email := jsOrStr emailArg "trader@example.com"
  if (closePrices.length : ℤ) < period then
    (RunResult.error ("Not enough data. Need at least " ++ toString period ++
      " candles"), [])
  else
    let sma := calculateSma closePrices period
    let stdDev := calculateStdDev sqrtFn closePrices period
    let upperBand := sma + stdDev * stdDevMultiplier
    let lowerBand := sma - stdDev * stdDevMultiplier
    let currentPrice := jsNth closePrices ((closePrices.length : ℤ) - 1)
    let breakout : Option BandSide :=
      match currentPrice with
      | some pq => bandBreakout pq upperBand lowerBand
      | none => none
    let emails : List Email :=
      match breakout with
      | some BandSide.upper =>
          [(email, ticker ++ " broke above upper Bollinger Band: Price " ++
            renderOptQ currentPrice ++ " > Upper Band " ++ toFixed2 upperBand)]
      | some BandSide.lower =>
          [(email, ticker ++ " broke below lower Bollinger Band: Price " ++
            renderOptQ currentPrice ++ " < Lower Band " ++ toFixed2 lowerBand)]
      | none => []
    (RunResult.ok {
        ticker := ticker
        currentPrice := currentPrice
        sma := sma
        upperBand := upperBand
        lowerBand := lowerBand
        breakout := breakout
        emailSent := breakout.isSome }, emails)

end Bollinger

/-- A flat candle with the given closing price, for concrete scenarios. -/
def mkCandle (c : ℚ) : Candle :=
  { timestamp := 0, open_ := c, high := c, low := c, close := c, volume := 1 }

/-- A candle carrying only a volume, for concrete scenarios. -/
def volCandle (v : ℚ) : Candle :=
  { timestamp := 0, open_ := 0, high := 0, low := 0, close := 0, volume := v }

/-- C2 counterexample: 5 candles with SMA slow period 20 — the Simple Moving
Average Alert outputs status `'ok'` (with no crossover and no email), not the
claimed `'error'`. -/
theorem smaAlert_insufficient_data_not_error :
    (SmaAlert.run none [mkCandle 1, mkCandle 2, mkCandle 3, mkCandle 4, mkCandle 5]
        none (some (JsInt.val 20)) none).1.status = "ok" ∧
    (SmaAlert.run none [mkCandle 1, mkCandle 2, mkCandle 3, mkCandle 4, mkCandle 5]
        none (some (JsInt.val 20)) none).2 = [] := by
  constructor <;> rfl

/-- C2 (amended). Insufficient data is handled per strategy: the Bollinger
Bands Breakout and the Volume Spike Detector检error with a message naming the
minimum required count and schedule nothing; the Simple Moving Average Alert
has no such check — it outputs status `'ok'` with crossover `'none'` and no
notification, so no misleading signal is emitted but no error either. -/
theorem insufficient_data_behaviour :
    (∀ (sqrtFn : ℚ → ℚ) (tickerArg : Option String) (candles : List Candle)
        (periodArg : Option JsInt) (multArg : Option JsNum) (emailArg : Option String),
      ((candles.map Candle.close).length : ℤ) < jsOrInt periodArg 20 →
        Bollinger.run sqrtFn tickerArg candles periodArg multArg emailArg =
          (RunResult.error ("Not enough data. Need at least " ++
            toString (jsOrInt periodArg 20) ++ " candles"), [])) ∧
    (∀ (tickerArg : Option String) (candles : List Candle)
        (vpArg : Option JsInt) (smArg : Option JsNum) (emailArg : Option String),
      (candles.length : ℤ) < jsOrInt vpArg 20 + 1 →
        VolumeSpike.run tickerArg candles vpArg smArg emailArg =
          (RunResult.error ("Not enough candles. Need at least " ++
            toString (jsOrInt vpArg 20 + 1)), [])) ∧
    (∀ (tickerArg : Option String) (candles : List Candle)
        (fpArg spArg : Option JsInt) (emailArg : Option String),
      (candles.length : ℤ) ≤ jsOrInt spArg 20 →
        (SmaAlert.run tickerArg candles fpArg spArg emailArg).1.status = "ok" ∧
        (∀ r, (SmaAlert.run tickerArg candles fpArg spArg emailArg).1 = RunResult.ok r →
          r.crossover = "none" ∧ r.emailSent = false) ∧
        (SmaAlert.run tickerArg candles fpArg spArg emailArg).2 = []) := by
  refine ⟨?_, ?_, ?_⟩
  · intro sqrtFn tickerArg candles periodArg multArg emailArg h
    simp only [Bollinger.run]
    rw [if_pos h]
  · intro tickerArg candles vpArg smArg emailArg h
    simp only [VolumeSpike.run]
    rw [if_pos h]
  · intro tickerArg candles fpArg spArg emailArg h
    have hslow : (calculateSma (candles.map Candle.close) (jsOrInt spArg 20)).length < 2 := by
      simp only [calculateSma, List.length_map, List.length_range]
      omega
    have hcross :
        detectCrossover (calculateSma (candles.map Candle.close) (jsOrInt fpArg 10))
          (calculateSma (candles.map Candle.close) (jsOrInt spArg 20)) = none := by
      simp only [detectCrossover]
      rw [if_pos (Or.inr hslow)]
    simp only [SmaAlert.run, hcross]
    refine ⟨by trivial, ?_, by trivial⟩
    intro r hr
    simp only [RunResult.ok.injEq] at hr
    subst hr
    exact ⟨rfl, rfl⟩

/-- Witness for C2 (amended): Bollinger at 5 candles / period 20 errors naming
the minimum; the SMA alert at the same data stays `'ok'` with no email. -/
theorem insufficient_data_behaviour_witness :
    Bollinger.run id none [mkCandle 1, mkCandle 2, mkCandle 3, mkCandle 4, mkCandle 5]
        none none none =
      (RunResult.error "Not enough data. Need at least 20 candles", []) ∧
    (SmaAlert.run none [mkCandle 1, mkCandle 2, mkCandle 3, mkCandle 4, mkCandle 5]
        none none none).2 = [] := by
  constructor
  · have h := insufficient_data_behaviour.1 id none
      [mkCandle 1, mkCandle 2, mkCandle 3, mkCandle 4, mkCandle 5] none none none
      (by decide)
    simpa using h
  · exact (insufficient_data_behaviour.2.2 none
      [mkCandle 1, mkCandle 2, mkCandle 3, mkCandle 4, mkCandle 5] none none none
      (by decide)).2.2

/-- C3 counterexample: volumes `[0, 0, 5]` with `volumePeriod = 2` give a
trailing average of `0`; the Volume Spike Detector still outputs status `'ok'`
and propagates `Infinity` as the `volumeRatio` output field (and even fires
the spike). -/
theorem volumeSpike_zero_average_not_error :
    (VolumeSpike.run none [volCandle 0, volCandle 0, volCandle 5]
        (some (JsInt.val 2)) none none).1.status = "ok" ∧
    ((VolumeSpike.run none [volCandle 0, volCandle 0, volCandle 5]
        (some (JsInt.val 2)) none none).1.getOk).map VolumeSpike.OkRecord.volumeRatio =
      some JsVal.posInf ∧
    ((VolumeSpike.run none [volCandle 0, volCandle 0, volCandle 5]
        (some (JsInt.val 2)) none none).1.getOk).map VolumeSpike.OkRecord.spikeDetected =
      some true := by
  have h2 : jsSlice (List.map Candle.volume [volCandle 0, volCandle 0, volCandle 5])
      (-jsOrInt (some (JsInt.val 2)) 20 - 1) (-1) = ([0, 0] : List ℚ) := rfl
  have havg : VolumeSpike.calculateAverage ([0, 0] : List ℚ) = JsVal.num 0 := by
    norm_num [VolumeSpike.calculateAverage, jsDivV]
  have h1 : jsOfOpt (jsNth (List.map Candle.volume [volCandle 0, volCandle 0, volCandle 5])
      ((List.length (List.map Candle.volume [volCandle 0, volCandle 0, volCandle 5]) : ℤ) - 1)) =
      JsVal.num 5 := rfl
  have hratio : jsDivV (JsVal.num 5) (JsVal.num 0) = JsVal.posInf := by
    norm_num [jsDivV]
  have hguard : ¬ ((List.length [volCandle 0, volCandle 0, volCandle 5] : ℤ) <
      jsOrInt (some (JsInt.val 2)) 20 + 1) := by decide
  refine ⟨rfl, ?_, ?_⟩ <;>
  · simp only [VolumeSpike.run, h2, havg, h1, hratio, if_neg hguard]
    rfl

/-- C3 (amended). The only `'error'` condition of the Volume Spike Detector is
an insufficient candle count; a zero trailing average volume does not produce
an error — the ratio becomes `Infinity` (or `NaN`) and flows into the `'ok'`
output record. -/
theorem volumeSpike_error_iff_insufficient :
    ∀ (tickerArg : Option String) (candles : List Candle)
      (vpArg : Option JsInt) (smArg : Option JsNum) (emailArg : Option String),
      ((VolumeSpike.run tickerArg candles vpArg smArg emailArg).1.status = "error" ↔
        (candles.length : ℤ) < jsOrInt vpArg 20 + 1) := by
  intro tickerArg candles vpArg smArg emailArg
  by_cases h : (candles.length : ℤ) < jsOrInt vpArg 20 + 1
  · simp only [VolumeSpike.run]
    rw [if_pos h]
    simpa [RunResult.status] using h
  · simp only [VolumeSpike.run]
    rw [if_neg h]
    simp only [RunResult.status]
    constructor
    · intro hcontra
      exact absurd hcontra (by decide)
    · intro hc
      exact absurd hc h

/-- C4 counterexample: with 2 candles and no `threshold` argument, the Price
Threshold Alert outputs status `'ok'` (an untriggered `ok` record), not the
claimed `'error'`. -/
theorem thresholdAlert_missing_threshold_not_error :
    (ThresholdAlert.run none [mkCandle 1, mkCandle 2] none none none).1.status = "ok" ∧
    (ThresholdAlert.run none [mkCandle 1, mkCandle 2] none none none).2 = [] := by
  constructor <;> rfl

/-- C4 (amended). A missing `threshold` never produces an error: whenever the
candle-count guard passes, the run emits an `'ok'` record with
`triggered = false`, `emailSent = false`, and schedules no notification
(every JS comparison against `undefined` is false). -/
theorem thresholdAlert_missing_threshold_spec :
    ∀ (tickerArg : Option String) (candles : List Candle)
      (directionArg emailArg : Option String),
      2 ≤ candles.length →
      ((ThresholdAlert.run tickerArg candles none directionArg emailArg).1.status = "ok" ∧
       (∀ r, (ThresholdAlert.run tickerArg candles none directionArg emailArg).1 =
          RunResult.ok r → r.triggered = false ∧ r.emailSent = false) ∧
       (ThresholdAlert.run tickerArg candles none directionArg emailArg).2 = []) := by
  intro tickerArg candles directionArg emailArg h
  have hguard : ¬ candles.length < 2 := by omega
  simp only [ThresholdAlert.run, if_neg hguard, jsLeQ, jsGtQ, jsGeQ, jsLtQ,
    Bool.and_false, Bool.false_and, Bool.and_self, Bool.or_self]
  refine ⟨by trivial, ?_, by trivial⟩
  intro r hr
  simp only [RunResult.ok.injEq] at hr
  subst hr
  exact ⟨rfl, rfl⟩

/-- Witness for C4 (amended) at two candles with closes `1, 2`. -/
theorem thresholdAlert_missing_threshold_spec_witness :
    (ThresholdAlert.run none [mkCandle 1, mkCandle 2] none none none).2 = [] :=
  (thresholdAlert_missing_threshold_spec none [mkCandle 1, mkCandle 2] none none
    (by norm_num)).2.2

/-- C10. A supplied argument whose parse result is falsy — `0`, `NaN`, or an
empty string — is replaced by the documented default exactly as when the
argument is omitted, both at the `||` defaulting helpers themselves and
through entire strategy runs (a period of `0` behaves identically to a
missing period, a multiplier of `0` identically to a missing multiplier). -/
theorem falsy_arguments_use_default :
    (∀ d : ℤ, jsOrInt (some (JsInt.val 0)) d = d ∧ jsOrInt (some JsInt.nan) d = d ∧
      jsOrInt none d = d) ∧
    (∀ d : ℚ, jsOrNum (some (JsNum.num 0)) d = d ∧ jsOrNum (some JsNum.nan) d = d ∧
      jsOrNum none d = d) ∧
    (∀ d : String, jsOrStr (some "") d = d ∧ jsOrStr none d = d) ∧
    (∀ (tickerArg : Option String) (candles : List Candle) (spArg : Option JsInt)
        (emailArg : Option String),
      SmaAlert.run tickerArg candles (some (JsInt.val 0)) spArg emailArg =
        SmaAlert.run tickerArg candles none spArg emailArg) ∧
    (∀ (tickerArg : Option String) (candles : List Candle) (smArg : Option JsNum)
        (emailArg : Option String),
      VolumeSpike.run tickerArg candles (some (JsInt.val 0)) smArg emailArg =
        VolumeSpike.run tickerArg candles none smArg emailArg) ∧
    (∀ (tickerArg : Option String) (candles : List Candle) (vpArg : Option JsInt)
        (emailArg : Option String),
      VolumeSpike.run tickerArg candles vpArg (some (JsNum.num 0)) emailArg =
        VolumeSpike.run tickerArg candles vpArg none emailArg) := by
  refine ⟨?_, ?_, ?_, ?_, ?_, ?_⟩
  · intro d
    refine ⟨?_, rfl, rfl⟩
    simp [jsOrInt]
  · intro d
    refine ⟨?_, rfl, rfl⟩
    simp [jsOrNum]
  · intro d
    refine ⟨?_, rfl⟩
    simp [jsOrStr]
  · intro tickerArg candles spArg emailArg
    simp [SmaAlert.run, jsOrInt]
  · intro tickerArg candles smArg emailArg
    simp [VolumeSpike.run, jsOrInt]
  · intro tickerArg candles vpArg emailArg
    simp [VolumeSpike.run, jsOrNum]
